import Mathlib

/-!
Shallow embedding of the contact-manager core (`ab_classes.py`, `main.py`):
field validation (Name/Phone/Email/Birthday), the `Record` aggregate, the
`AddressBook` store (a Python `dict` modelled as an insertion-ordered
association list), pagination, search, and pickle persistence.

Python strings are modelled as `String` (with character-level work done on
`String.data : List Char`); Python `datetime` values are a calendar date plus
the seconds elapsed since midnight; `datetime.strptime` of a date-only format
yields midnight.  Field wrapper objects (`Name`, `Phone`, ...) are modelled by
their validated payloads, and a raising setter by a function into `Option` /
`Except`.
-/

/-! ## Python `datetime` model -/

/-- Proleptic Gregorian calendar date, as held by `datetime` (year, month, day). -/
structure PyDate where
  year : Nat
  month : Nat
  day : Nat
deriving DecidableEq, Repr

/-- Gregorian leap-year rule used by Python's `datetime`. -/
def isLeap (y : Nat) : Bool :=
  y % 4 == 0 && (y % 100 != 0 || y % 400 == 0)

/-- Number of days in month `m` of year `y` (months are 1-based). -/
def daysInMonth (y m : Nat) : Nat :=
  if m == 2 then (if isLeap y then 29 else 28)
  else if m == 4 || m == 6 || m == 9 || m == 11 then 30
  else 31

/-- Days in year `y` strictly before month `m` begins. -/
def daysBeforeMonth (y m : Nat) : Nat :=
  (List.range (m - 1)).foldl (fun acc i => acc + daysInMonth y (i + 1)) 0

/-- Rata-die style ordinal of a date (Python's `date.toordinal`): day 1 is
0001-01-01.  Differences of ordinals are whole-day differences of dates. -/
def toOrdinal (d : PyDate) : Nat :=
  365 * (d.year - 1) + (d.year - 1) / 4 - (d.year - 1) / 100 + (d.year - 1) / 400
    + daysBeforeMonth d.year d.month + d.day

/-- Validity of a (year, month, day) triple as a `datetime` date. -/
def validDate (y m d : Nat) : Bool :=
  1 ≤ m && m ≤ 12 && 1 ≤ d && d ≤ daysInMonth y m

/-- Python `datetime.replace(year=y)`: rebuilds the date with a new year and
raises `ValueError` (here: `none`) when the rebuilt date is invalid, e.g.
February 29 moved to a non-leap year. -/
def replaceYear (d : PyDate) (y : Nat) : Option PyDate :=
  if validDate y d.month d.day then some ⟨y, d.month, d.day⟩ else none

/-- Python `datetime.today()`: a calendar date together with the seconds of the
day already elapsed on the wall clock (`0 ≤ secs < 86400`; sub-second parts
only ever push the value further into the day and are absorbed into `secs`
being positive). -/
structure PyDateTime where
  date : PyDate
  secs : Nat
deriving DecidableEq, Repr

/-- The `.days` attribute of the Python `timedelta` obtained by subtracting a
datetime at `ordB` midnight plus `bsecs` seconds from a datetime at `ordA`
midnight: total seconds divided by 86400, rounded towards minus infinity
(Python `timedelta` normalisation). -/
def tdDays (ordA ordB bsecs : Nat) : Int :=
  Int.fdiv (((ordA : Int) - (ordB : Int)) * 86400 - (bsecs : Int)) 86400

/-! ## Field validation (`Phone.value` setter, `ab_classes.py` lines 68-90) -/

/-- Python `str.strip()`: removes leading and trailing whitespace characters. -/
def pyStrip (l : List Char) : List Char :=
  ((l.dropWhile Char.isWhitespace).reverse.dropWhile Char.isWhitespace).reverse

/-- Python `str.removeprefix("+")`: drops one leading `+` when present. -/
def removeLeadingPlus (l : List Char) : List Char :=
  match l with
  | [] => []
  | c :: rest => if c = '+' then rest else c :: rest

/-- Python `str.replace(c, "")`: deletes every occurrence of `c`. -/
def removeAll (c : Char) (l : List Char) : List Char :=
  l.filter (fun x => x ≠ c)

/-- The normalisation pipeline of the `Phone.value` setter:
`value.strip().removeprefix("+").replace("(", "").replace(")", "").replace("-", "")`. -/
def phoneNormalize (l : List Char) : List Char :=
  removeAll '-' (removeAll ')' (removeAll '(' (removeLeadingPlus (pyStrip l))))

/-- Python `str.isdecimal()` on the ASCII fragment: non-empty and all decimal
digits. -/
def pyIsDecimal (l : List Char) : Bool :=
  !l.isEmpty && l.all Char.isDigit

/-- The `Phone.min_len` class attribute. -/
def phoneMinLen : Nat := 5

/-- The `Phone.max_len` class attribute. -/
def phoneMaxLen : Nat := 17

/-- The `Phone.value` setter: normalise, then raise `TypeError` (here: `none`)
unless the normalised string is all-decimal with length in `[5, 17]`;
otherwise store the normalised string. -/
def phoneParse (s : String) : Option String :=
  let new_phone := phoneNormalize s.data
  if !pyIsDecimal new_phone
      || !(phoneMinLen ≤ new_phone.length && new_phone.length ≤ phoneMaxLen) then
    none
  else
    some (String.mk new_phone)

/-! ## Python errors -/

/-- The built-in exception kinds raised by the core (`TypeError` from phone
validation, `ValueError` from `datetime`, `IndexError` from list/record ops). -/
inductive PyErr where
  | typeError
  | valueError
  | indexError
deriving DecidableEq, Repr

/-! ## The `Record` aggregate (`ab_classes.py` lines 93-160) -/

/-- One contact: the validated payloads of its `Name`, `Phone`, `Email` and
`Birthday` fields (`Birthday` stores the `datetime` parsed by `strptime`,
i.e. a date at midnight, so only the date is kept). -/
structure Record where
  name : String
  phones : List String
  email : Option String := none
  birthday : Option PyDate := none
deriving DecidableEq, Repr

/-- Two-digit zero-padded decimal rendering, as in `strftime` `%d` / `%m`. -/
def pad2 (n : Nat) : String :=
  if n < 10 then "0" ++ toString n else toString n

/-- The `Birthday.__str__` override: `strftime(value, "%d.%m.%Y")` (years of
the repository's data are four-digit, so `%Y` needs no padding). -/
def birthdayStr (d : PyDate) : String :=
  pad2 d.day ++ "." ++ pad2 d.month ++ "." ++ toString d.year

/-- Python `str(x)` on an optional field: `str(None)` is the string `None`;
otherwise render the payload. -/
def strOpt (f : α → String) : Option α → String
  | none => "None"
  | some x => f x

/-- The `Record.__str__` f-string:
`f"{name}: Phones: {", ".join(phones)}; E-mail:{email}; B-day:{birthday} \n"`
(note the space before the newline, and that an unset optional field prints
as `None`). -/
def recordStr (r : Record) : String :=
  r.name ++ ": Phones: " ++ String.intercalate ", " r.phones
    ++ "; E-mail:" ++ strOpt id r.email
    ++ "; B-day:" ++ strOpt birthdayStr r.birthday ++ " \n"

/-- The `Record.add_phone` method: unconditional append. -/
def Record.add_phone (r : Record) (p : String) : Record :=
  { r with phones := r.phones ++ [p] }

/-- The `Record.add_birthday` method: sets the birthday when none is present,
otherwise raises `IndexError("Birthday already entered")` leaving the record
untouched. -/
def Record.add_birthday (r : Record) (b : PyDate) : Except PyErr Record :=
  match r.birthday with
  | none => .ok { r with birthday := some b }
  | some _ => .error .indexError

/-- Resolution of a Python list index `i` against a list of length `n`:
negative indices count from the end; out-of-range indices are `none`
(`IndexError`). -/
def pyResolveIndex (n : Nat) (i : Int) : Option Nat :=
  let j := if i < 0 then i + n else i
  if 0 ≤ j ∧ j < n then some j.toNat else none

/-- Python `list.pop(i)`: returns the element at (possibly negative) index `i`
together with the remaining list, or `none` on `IndexError`. -/
def pyPop (l : List α) (i : Int) : Option (α × List α) :=
  match pyResolveIndex l.length i with
  | none => none
  | some j =>
    match l.get? j with
    | none => none
    | some x => some (x, l.eraseIdx j)

/-- Python `list.insert(i, x)`: negative indices count from the end and are
clamped to the front, overlarge indices are clamped to the back; never raises. -/
def pyInsert (l : List α) (i : Int) (x : α) : List α :=
  let j : Int := if i < 0 then max 0 (i + l.length) else min i l.length
  List.insertIdx j.toNat x l

/-- The `Record.del_phone` method: raises `IndexError` on an empty phone list,
otherwise `phones.pop(num - 1)`, returning the popped phone and the updated
record. -/
def Record.del_phone (r : Record) (num : Int) : Except PyErr (String × Record) :=
  if r.phones.isEmpty then .error .indexError
  else
    match pyPop r.phones (num - 1) with
    | none => .error .indexError
    | some (p, rest) => .ok (p, { r with phones := rest })

/-- The `Record.edit_phone` method: raises `IndexError` on an empty phone
list, otherwise `phones.pop(num - 1)` followed by
`phones.insert(num - 1, phone_new)`; the pop is the only failure point, so a
failing call leaves the phones untouched. -/
def Record.edit_phone (r : Record) (phone_new : String) (num : Int) :
    Except PyErr Record :=
  if r.phones.isEmpty then .error .indexError
  else
    match pyPop r.phones (num - 1) with
    | none => .error .indexError
    | some (_, rest) => .ok { r with phones := pyInsert rest (num - 1) phone_new }

/-- The `Record.days_to_birthday` method, with `datetime.today()` injected as
`now`.  `compare = birthday.replace(year=today.year)` raises `ValueError` for
a Feb-29 birthday in a non-leap year; `(compare - today).days` is a
`timedelta` whole-day count biased by the wall-clock time of day. -/
def Record.days_to_birthday (r : Record) (now : PyDateTime) : Except PyErr String :=
  match r.birthday with
  | none => .ok "Sorry, no birthdate for this contact"
  | some b =>
    match replaceYear b now.date.year with
    | none => .error .valueError
    | some compare =>
      let d1 := tdDays (toOrdinal compare) (toOrdinal now.date) now.secs
      if 0 < d1 then .ok (toString d1 ++ " days to birthday")
      else if now.date.month == compare.month && now.date.day == compare.day then
        .ok "It is TODAY!!!"
      else
        match replaceYear compare (now.date.year + 1) with
        | none => .error .valueError
        | some c2 =>
          .ok (toString (tdDays (toOrdinal c2) (toOrdinal now.date) now.secs)
                ++ " days to birthday")

/-! ## The `AddressBook` store (`ab_classes.py` lines 163-212) -/

/-- The `UserDict` payload `self.data`: a Python `dict` from a contact's name
string to its `Record`, modelled as an association list in insertion order
(Python dicts preserve insertion order; `update` replaces in place). -/
abbrev AddressBook := List (String × Record)

/-- Python `dict.get` / subscript: the value at the first matching key. -/
def dictGet (book : AddressBook) (k : String) : Option Record :=
  match book with
  | [] => none
  | (k0, v0) :: rest => if k0 = k then some v0 else dictGet rest k

/-- Python `self.data.update({k: v})`: replaces the value of an existing key
in place (keeping its position in the iteration order) or appends a new
binding at the end. -/
def dictUpdate (book : AddressBook) (k : String) (v : Record) : AddressBook :=
  match book with
  | [] => [(k, v)]
  | (k0, v0) :: rest =>
    if k0 = k then (k0, v) :: rest else (k0, v0) :: dictUpdate rest k v

/-- The `AddressBook.add_record` method:
`self.data.update({record.name.value: record})` — unconditional, no duplicate
check, never raises. -/
def AddressBook.add_record (book : AddressBook) (record : Record) : AddressBook :=
  dictUpdate book record.name record

/-- String concatenation of a list, as built by the `output += str(i)` loops
of `iterator` and `show_all`. -/
def joinAll : List String → String
  | [] => ""
  | s :: rest => s ++ joinAll rest

/-- The summary line `f"Total: {len(self.data)} contacts."`. -/
def summaryStr (n : Nat) : String :=
  "Total: " ++ toString n ++ " contacts."

/-- Loop body of `AddressBook.iterator`: at each round take the next `page`
records (`islice(values, start, start + page)` with `start += page`,
equivalently working on the not-yet-consumed suffix), concatenate their
renderings, and stop with the summary page once the concatenation is empty
(which happens exactly when the slice is empty, record renderings being
non-empty). -/
def iterGo (total page : Nat) (rem : List Record) : List String :=
  if h : joinAll ((rem.take page).map recordStr) = "" then
    [summaryStr total]
  else
    joinAll ((rem.take page).map recordStr) :: iterGo total page (rem.drop page)
termination_by rem.length
decreasing_by
  simp only [List.length_drop]
  apply Nat.sub_lt
  · rcases rem with _ | ⟨r, rs⟩
    · exact absurd (by simp [joinAll]) h
    · exact Nat.succ_pos _
  · rcases page with _ | q
    · exact absurd (by simp [joinAll]) h
    · exact Nat.succ_pos _

/-- The `AddressBook.iterator` generator, reified as the finite list of the
strings it yields: content pages of up to `page` records each, then the
summary page. -/
def AddressBook.iterator (book : AddressBook) (page : Nat) : List String :=
  iterGo book.length page (book.map Prod.snd)

/-- The `AddressBook.show_all` method: every record's rendering concatenated,
then the summary line. -/
def AddressBook.show_all (book : AddressBook) : String :=
  joinAll ((book.map Prod.snd).map recordStr) ++ summaryStr book.length

/-- The consecutive `page`-sized chunks of a list (`islice` windows of the
`iterator` loop), defined for a positive page size. -/
def chunksOf (p : Nat) (l : List α) : List (List α) :=
  if p = 0 then []
  else if l.isEmpty then []
  else l.take p :: chunksOf p (l.drop p)
termination_by l.length
decreasing_by
  simp only [List.length_drop]
  rename_i hp hl
  apply Nat.sub_lt
  · rcases l with _ | ⟨a, as⟩
    · exact absurd rfl hl
    · exact Nat.succ_pos _
  · exact Nat.pos_of_ne_zero hp

/-- Python `str.isnumeric()` on the ASCII fragment: non-empty and all decimal
digits. -/
def pyIsNumeric (s : String) : Bool :=
  !s.data.isEmpty && s.data.all Char.isDigit

/-- Python `re.match(pattern, s)` as a Boolean, for patterns free of regex
metacharacters (every pattern our theorems quantify over is alphanumeric):
`re.match` anchors the pattern at the start of the string, so on this
fragment it is exactly the literal prefix test. -/
def reMatch (pattern s : String) : Bool :=
  pattern.data.isPrefixOf s.data

/-- Python `re.match(pattern, s, flags=re.IGNORECASE)` on the same
metacharacter-free fragment: the prefix test up to ASCII case. -/
def reMatchCI (pattern s : String) : Bool :=
  (pattern.data.map Char.toLower).isPrefixOf (s.data.map Char.toLower)

/-- The `AddressBook.search` method: for an all-digit pattern, walk every
record's phone list and append the record once per phone whose value matches
the pattern at position 0; otherwise append each record whose name matches
the pattern at position 0 case-insensitively.  Store iteration order. -/
def AddressBook.search (book : AddressBook) (pattern : String) : List Record :=
  if pyIsNumeric pattern then
    book.flatMap (fun kv =>
      (kv.2.phones.filter (fun phone => reMatch pattern phone)).map (fun _ => kv.2))
  else
    book.flatMap (fun kv => if reMatchCI pattern kv.2.name then [kv.2] else [])

/-! ## Persistence (`save_to_file` / `load_from_file`, lines 164-170) -/

/-- The pickled form of one `Record`: `pickle.dump` serialises the object
graph field by field, so the blob determines exactly the name, the phone list
in order, the optional email and the optional birthday. -/
def pickleRecord (r : Record) : String × List String × Option String × Option PyDate :=
  (r.name, r.phones, r.email, r.birthday)

/-- Rebuilding a `Record` from its pickled fields (`pickle.load`). -/
def unpickleRecord (t : String × List String × Option String × Option PyDate) : Record :=
  { name := t.1, phones := t.2.1, email := t.2.2.1, birthday := t.2.2.2 }

/-- The `AddressBook.save_to_file` method: `pickle.dump(self.data, db)` —
the whole mapping serialised as one blob. -/
def AddressBook.save_to_file (book : AddressBook) :
    List (String × (String × List String × Option String × Option PyDate)) :=
  book.map (fun kv => (kv.1, pickleRecord kv.2))

/-- The `AddressBook.load_from_file` method: `self.data = pickle.load(db)`. -/
def AddressBook.load_from_file
    (blob : List (String × (String × List String × Option String × Option PyDate))) :
    AddressBook :=
  blob.map (fun kv => (kv.1, unpickleRecord kv.2))

/-! ## Spec-side definitions and concrete example data -/

/-- Rendering rule as worded by the amended C3: name, then the comma-joined
phones, then the email segment (the three-letter string `None` when unset),
then the birthday segment (likewise), then a space and a newline. -/
def recordStrAmended (r : Record) : String :=
  r.name ++ ": Phones: " ++ String.intercalate ", " r.phones
    ++ "; E-mail:" ++ (match r.email with | none => "None" | some e => e)
    ++ "; B-day:" ++ (match r.birthday with | none => "None" | some d => birthdayStr d)
    ++ " \n"

/-- Search result as worded by the amended C5: for an all-digit pattern each
record contributes one occurrence per phone having the pattern as a string
prefix of its digit value; otherwise the records whose lowercased name has
the lowercased pattern as a prefix, once each; both in store order. -/
def searchAmended (book : AddressBook) (pattern : String) : List Record :=
  if pyIsNumeric pattern then
    book.flatMap (fun kv =>
      List.replicate
        (kv.2.phones.countP (fun ph => pattern.data.isPrefixOf ph.data)) kv.2)
  else
    (book.map Prod.snd).filter
      (fun r => (pattern.data.map Char.toLower).isPrefixOf (r.name.data.map Char.toLower))

/-- Example contact with one phone (spec §8 search example). -/
def annaRec : Record := { name := "Anna", phones := ["1234567"] }

/-- Example contact with no phones (spec §8 search example). -/
def annRec : Record := { name := "Ann", phones := [] }

/-- Store holding the two search-example contacts in insertion order. -/
def annaBook : AddressBook := [("Anna", annaRec), ("Ann", annRec)]

/-- A contact with two phones that share the prefix `123`. -/
def dupRec : Record := { name := "Bob", phones := ["12345", "12346"] }

/-- A stored contact named Bob with one phone. -/
def bobOld : Record := { name := "Bob", phones := ["11111"] }

/-- A second, different record with the same name Bob. -/
def bobNew : Record := { name := "Bob", phones := ["22222"] }

/-- A contact holding exactly two phones. -/
def twoPhoneRec : Record := { name := "Bob", phones := ["11111", "22222"] }

/-- A contact with every optional field unset and no phones. -/
def plainBob : Record := { name := "Bob", phones := [] }

/-- A contact whose stored birthday is February 29 of a leap year. -/
def leapRec : Record := { name := "Kate", phones := [], birthday := some ⟨2020, 2, 29⟩ }

/-- A contact whose birthday (March 2) is the day after the example "today"
(2024-03-01). -/
def marchRec : Record := { name := "Ann", phones := [], birthday := some ⟨1990, 3, 2⟩ }

/-- A contact whose birthday (March 1) falls on the example "today". -/
def todayRec : Record := { name := "Ann", phones := [], birthday := some ⟨1990, 3, 1⟩ }

/-- A fully populated contact used to witness the persistence round-trip. -/
def fullRec : Record :=
  { name := "Wit", phones := ["55555", "66666"], email := some "w@x.yz",
    birthday := some ⟨1999, 12, 31⟩ }

/-! ## Helper lemmas -/

/-- A decimal digit is not whitespace. -/
theorem isDigit_not_whitespace {c : Char} (h : c.isDigit = true) :
    c.isWhitespace = false := by
  rcases hw : c.isWhitespace with _ | _
  · rfl
  · exfalso
    simp only [Char.isWhitespace, Bool.or_eq_true, decide_eq_true_eq] at hw
    rcases hw with ((rfl | rfl) | rfl) | rfl <;> exact absurd h (by decide)

/-- A decimal digit is none of the characters stripped by phone
normalisation. -/
theorem isDigit_ne_stripped {c : Char} (h : c.isDigit = true) :
    c ≠ '+' ∧ c ≠ '(' ∧ c ≠ ')' ∧ c ≠ '-' := by
  refine ⟨?_, ?_, ?_, ?_⟩ <;> rintro rfl <;> exact absurd h (by decide)

/-- The whitespace-dropping pass is the identity when no element satisfies the
predicate. -/
theorem dropWhile_eq_self_of {p : α → Bool} (l : List α)
    (h : ∀ x ∈ l, p x = false) : l.dropWhile p = l := by
  cases l with
  | nil => rfl
  | cons a as => simp [List.dropWhile_cons, h a (List.mem_cons_self a as)]

/-- Python `strip` is the identity on a whitespace-free string. -/
theorem pyStrip_eq_self (l : List Char) (h : ∀ c ∈ l, c.isWhitespace = false) :
    pyStrip l = l := by
  unfold pyStrip
  rw [dropWhile_eq_self_of l h, dropWhile_eq_self_of, List.reverse_reverse]
  intro c hc
  exact h c (List.mem_reverse.mp hc)

/-- Python `replace(c, "")` is the identity when `c` does not occur. -/
theorem removeAll_eq_self (c : Char) (l : List Char) (h : ∀ x ∈ l, x ≠ c) :
    removeAll c l = l := by
  unfold removeAll
  rw [List.filter_eq_self]
  intro a ha
  simpa using h a ha

/-- Phone normalisation of `"+" + d` for an all-digit `d` yields `d`. -/
theorem phoneNormalize_plus_digits (d : List Char)
    (h : ∀ c ∈ d, c.isDigit = true) : phoneNormalize ('+' :: d) = d := by
  unfold phoneNormalize
  rw [pyStrip_eq_self]
  · have h1 : removeLeadingPlus ('+' :: d) = d := by simp [removeLeadingPlus]
    have e1 : removeAll '(' d = d :=
      removeAll_eq_self _ _ (fun x hx => (isDigit_ne_stripped (h x hx)).2.1)
    have e2 : removeAll ')' d = d :=
      removeAll_eq_self _ _ (fun x hx => (isDigit_ne_stripped (h x hx)).2.2.1)
    have e3 : removeAll '-' d = d :=
      removeAll_eq_self _ _ (fun x hx => (isDigit_ne_stripped (h x hx)).2.2.2)
    rw [h1, e1, e2, e3]
  · intro c hc
    rcases List.mem_cons.mp hc with rfl | hc
    · rfl
    · exact isDigit_not_whitespace (h c hc)

/-- Phone normalisation of a bare all-digit string is the identity. -/
theorem phoneNormalize_digits (d : List Char)
    (h : ∀ c ∈ d, c.isDigit = true) : phoneNormalize d = d := by
  unfold phoneNormalize
  rw [pyStrip_eq_self]
  · have h1 : removeLeadingPlus d = d := by
      cases d with
      | nil => rfl
      | cons a as =>
        have ha := (isDigit_ne_stripped (h a (List.mem_cons_self a as))).1
        simp [removeLeadingPlus, ha]
    have e1 : removeAll '(' d = d :=
      removeAll_eq_self _ _ (fun x hx => (isDigit_ne_stripped (h x hx)).2.1)
    have e2 : removeAll ')' d = d :=
      removeAll_eq_self _ _ (fun x hx => (isDigit_ne_stripped (h x hx)).2.2.1)
    have e3 : removeAll '-' d = d :=
      removeAll_eq_self _ _ (fun x hx => (isDigit_ne_stripped (h x hx)).2.2.2)
    rw [h1, e1, e2, e3]
  · intro c hc
    exact isDigit_not_whitespace (h c hc)

/-- Lookup after a dict update: the updated key maps to the new value, every
other key is untouched. -/
theorem dictGet_dictUpdate (book : AddressBook) (k : String) (v : Record)
    (j : String) :
    dictGet (dictUpdate book k v) j = if j = k then some v else dictGet book j := by
  induction book with
  | nil =>
    by_cases hj : j = k
    · simp [dictUpdate, dictGet, hj]
    · simp [dictUpdate, dictGet, hj, Ne.symm hj]
  | cons kv rest ih =>
    obtain ⟨k0, v0⟩ := kv
    by_cases h0 : k0 = k
    · subst h0
      by_cases hj : j = k0
      · subst hj
        simp [dictUpdate, dictGet]
      · simp [dictUpdate, dictGet, hj, Ne.symm hj]
    · by_cases hj : k0 = j
      · have hjk : ¬ j = k := fun hc => h0 (hj.trans hc)
        simp [dictUpdate, dictGet, h0, hj, hjk]
      · simp [dictUpdate, dictGet, h0, hj, ih]

/-- Key order after a dict update: unchanged when the key was present, the new
key appended when it was not. -/
theorem keys_dictUpdate (book : AddressBook) (k : String) (v : Record) :
    (dictUpdate book k v).map Prod.fst =
      if (book.map Prod.fst).contains k then book.map Prod.fst
      else book.map Prod.fst ++ [k] := by
  induction book with
  | nil => simp [dictUpdate]
  | cons kv rest ih =>
    obtain ⟨k0, v0⟩ := kv
    by_cases h0 : k0 = k
    · subst h0
      simp [dictUpdate, List.contains_cons]
    · have hbk : (k == k0) = false := beq_eq_false_iff_ne.mpr (Ne.symm h0)
      by_cases hc : (rest.map Prod.fst).contains k = true
      · simp only [List.map_cons, dictUpdate, if_neg h0, ih, List.contains_cons, hbk, hc,
          Bool.false_or, if_pos]
      · have hc2 : (rest.map Prod.fst).contains k = false := by simpa using hc
        simp only [List.map_cons, dictUpdate, if_neg h0, ih, List.contains_cons, hbk, hc2,
          Bool.false_or, Bool.false_eq_true, if_false, List.cons_append]

/-- Python index resolution fails exactly when the index is at or past the
length, or below minus the length. -/
theorem pyResolveIndex_eq_none_iff (n : Nat) (i : Int) :
    pyResolveIndex n i = none ↔ ((n : Int) ≤ i ∨ i < -(n : Int)) := by
  unfold pyResolveIndex
  by_cases hneg : i < 0
  · simp only [if_pos hneg]
    by_cases hin : (0:Int) ≤ i + n ∧ i + (n:Int) < n
    · rw [if_pos hin]
      constructor
      · intro hcontra; cases hcontra
      · intro hor; exfalso; omega
    · rw [if_neg hin]
      constructor
      · intro _; omega
      · intro _; rfl
  · simp only [if_neg hneg]
    by_cases hin : (0:Int) ≤ i ∧ i < (n:Int)
    · rw [if_pos hin]
      constructor
      · intro hcontra; cases hcontra
      · intro hor; exfalso; omega
    · rw [if_neg hin]
      constructor
      · intro _; omega
      · intro _; rfl

/-- A successfully resolved Python index is in range. -/
theorem pyResolveIndex_some_lt {n : Nat} {i : Int} {j : Nat}
    (h : pyResolveIndex n i = some j) : j < n := by
  unfold pyResolveIndex at h
  by_cases hneg : i < 0
  · rw [if_pos hneg] at h
    by_cases hin : (0:Int) ≤ i + n ∧ i + (n:Int) < n
    · rw [if_pos hin] at h
      injection h with h
      omega
    · rw [if_neg hin] at h; cases h
  · rw [if_neg hneg] at h
    by_cases hin : (0:Int) ≤ i ∧ i < (n:Int)
    · rw [if_pos hin] at h
      injection h with h
      omega
    · rw [if_neg hin] at h; cases h

/-- Python `list.pop(i)` raises `IndexError` exactly when `i` is out of the
negative-index-extended range. -/
theorem pyPop_eq_none_iff (l : List α) (i : Int) :
    pyPop l i = none ↔ ((l.length : Int) ≤ i ∨ i < -(l.length : Int)) := by
  unfold pyPop
  rcases hres : pyResolveIndex l.length i with _ | j
  · simp only [hres]
    simpa [← pyResolveIndex_eq_none_iff l.length i] using hres
  · have hlt : j < l.length := pyResolveIndex_some_lt hres
    rcases hg : l.get? j with _ | x
    · exfalso
      have := List.get?_eq_none.mp hg
      omega
    · simp only [hres, hg]
      constructor
      · intro hcontra; cases hcontra
      · intro hor
        exfalso
        have := (pyResolveIndex_eq_none_iff l.length i).mpr hor
        rw [hres] at this; cases this

/-- Every record rendering is a non-empty string (it contains at least the
literal segment markers). -/
theorem recordStr_length_pos (r : Record) : 0 < (recordStr r).length := by
  have h10 : (": Phones: ").length = 10 := by decide
  simp only [recordStr, String.length_append]
  omega

/-- Concatenation distributes over the accumulating `+=` loop. -/
theorem joinAll_append (a b : List String) :
    joinAll (a ++ b) = joinAll a ++ joinAll b := by
  induction a with
  | nil => simp [joinAll]
  | cons x xs ih => simp [joinAll, ih, String.append_assoc]

/-- A page built from a non-empty chunk of records is a non-empty string. -/
theorem joinAll_recordStr_eq_empty_iff (chunk : List Record) :
    joinAll (chunk.map recordStr) = "" ↔ chunk = [] := by
  cases chunk with
  | nil => simp [joinAll]
  | cons r rs =>
    simp only [List.map_cons, joinAll]
    constructor
    · intro hcontra
      exfalso
      have hlen := congrArg String.length hcontra
      rw [String.length_append] at hlen
      have hpos := recordStr_length_pos r
      simp at hlen
      omega
    · intro hcontra; cases hcontra

/-- The chunks concatenate back to the original list. -/
theorem chunksOf_flatten (p : Nat) (l : List α) (hp : 0 < p) :
    (chunksOf p l).flatten = l := by
  induction l using chunksOf.induct p with
  | case1 => omega
  | case2 l hpz hl =>
    rw [chunksOf, if_neg hpz, if_pos hl]
    simp [List.isEmpty_iff.mp hl]
  | case3 l hpz hl ih =>
    rw [chunksOf, if_neg hpz, if_neg hl]
    simp [List.flatten_cons, ih, List.take_append_drop]

/-- The number of chunks is the ceiling of length over page size. -/
theorem chunksOf_length (p : Nat) (l : List α) (hp : 0 < p) :
    (chunksOf p l).length = (l.length + p - 1) / p := by
  induction l using chunksOf.induct p with
  | case1 => omega
  | case2 l hpz hl =>
    rw [chunksOf, if_neg hpz, if_pos hl]
    have h0 : l.length = 0 := by simp [List.isEmpty_iff.mp hl]
    rw [h0]
    simp [Nat.div_eq_of_lt (by omega : p - 1 < p)]
  | case3 l hpz hl ih =>
    rw [chunksOf, if_neg hpz, if_neg hl]
    simp only [List.length_cons, ih, List.length_drop]
    have hl1 : 1 ≤ l.length := by
      rcases l with _ | ⟨a, as⟩
      · exact absurd rfl hl
      · simp
    have h1 : l.length + p - 1 = (l.length - 1) + p := by omega
    rw [h1, Nat.add_div_right _ hp]
    by_cases hcase : p ≤ l.length
    · have h2 : l.length - p + p - 1 = l.length - 1 := by omega
      rw [h2]
    · have h2 : l.length - p = 0 := by omega
      rw [h2]
      have h3 : (0 + p - 1) / p = 0 := Nat.div_eq_of_lt (by omega)
      have h4 : (l.length - 1) / p = 0 := Nat.div_eq_of_lt (by omega)
      rw [h3, h4]

/-- The pagination loop produces exactly the chunk pages followed by the
summary page. -/
theorem iterGo_eq_chunks (total p : Nat) (hp : 0 < p) (rem : List Record) :
    iterGo total p rem
      = (chunksOf p rem).map (fun ch => joinAll (ch.map recordStr))
          ++ [summaryStr total] := by
  induction rem using chunksOf.induct p with
  | case1 => omega
  | case2 l hpz hl =>
    have hl2 : l = [] := List.isEmpty_iff.mp hl
    subst hl2
    rw [iterGo, chunksOf, if_neg hpz]
    simp [joinAll]
  | case3 l hpz hl ih =>
    have hne : l ≠ [] := by simpa [List.isEmpty_iff] using hl
    have hchunk : l.take p ≠ [] := by
      rcases l with _ | ⟨a, as⟩
      · exact absurd rfl hne
      · rcases p with _ | q
        · exact absurd rfl hpz
        · simp
    have hout : joinAll ((l.take p).map recordStr) ≠ "" := by
      rw [ne_eq, joinAll_recordStr_eq_empty_iff]
      exact hchunk
    rw [iterGo, dif_neg hout, chunksOf, if_neg hpz, if_neg hl]
    simp [ih]

/-- Joining the per-chunk pages is joining the flattened chunk contents. -/
theorem joinAll_map_joinAll (f : α → String) (cs : List (List α)) :
    joinAll (cs.map (fun ch => joinAll (ch.map f)))
      = joinAll (cs.flatten.map f) := by
  induction cs with
  | nil => rfl
  | cons c cs ih =>
    simp [joinAll, List.flatten_cons, List.map_append, joinAll_append, ih]

/-- Appending a fixed element once per filtered match builds a replicate of
the match count. -/
theorem filter_map_const_eq_replicate (l : List α) (q : α → Bool) (c : β) :
    (l.filter q).map (fun _ => c) = List.replicate (l.countP q) c := by
  induction l with
  | nil => rfl
  | cons a as ih =>
    by_cases hq : q a = true
    · simp [List.filter_cons, List.countP_cons, hq, ih, List.replicate_succ]
    · simp [List.filter_cons, List.countP_cons, hq, ih]

/-- Appending a singleton per passing element is filtering the projected
values. -/
theorem flatMap_ite_singleton (l : List (String × Record)) (q : Record → Bool) :
    l.flatMap (fun kv => if q kv.2 then [kv.2] else [])
      = (l.map Prod.snd).filter q := by
  induction l with
  | nil => rfl
  | cons kv rest ih =>
    by_cases hq : q kv.2 = true <;>
      simp [List.flatMap_cons, List.filter_cons, hq, ih]

/-! ## Claim theorems -/

/-- C9: for a Record with no birthday set, `add_birthday` sets it; for a
Record that already has one, `add_birthday` fails (the raised `IndexError`
with message "Birthday already entered" is the spec's `DuplicateBirthday`)
and, the failure occurring before any update in a functional embedding, the
previously stored birthday is untouched. -/
theorem add_birthday_duplicate_guard (r : Record) (b : PyDate) :
    (r.birthday = none → r.add_birthday b = .ok { r with birthday := some b }) ∧
    (∀ b0 : PyDate, r.birthday = some b0 →
      r.add_birthday b = .error .indexError) := by
  constructor
  · intro h
    simp [Record.add_birthday, h]
  · intro b0 h
    simp [Record.add_birthday, h]

/-- Witness for C9: a fresh record accepts a birthday; a record holding one
rejects a second. -/
theorem add_birthday_duplicate_guard_witness :
    plainBob.add_birthday ⟨1990, 3, 1⟩
        = .ok { plainBob with birthday := some ⟨1990, 3, 1⟩ } ∧
    todayRec.add_birthday ⟨1991, 4, 2⟩ = .error .indexError :=
  ⟨(add_birthday_duplicate_guard plainBob ⟨1990, 3, 1⟩).1 rfl,
   (add_birthday_duplicate_guard todayRec ⟨1991, 4, 2⟩).2 ⟨1990, 3, 1⟩ rfl⟩

/-- C10: a record validly storing the leap-day birthday 29.02.2020 makes
`days_to_birthday` raise `ValueError` (from `replace(year=2023)`) in the
non-leap year 2023, so the call produces neither a countdown nor a
sentinel. -/
theorem days_to_birthday_leap_day_raises :
    validDate 2020 2 29 = true ∧
    leapRec.days_to_birthday ⟨⟨2023, 3, 1⟩, 0⟩ = .error .valueError := by
  constructor
  · decide
  · rfl

/-- C2 (code divergence): with the clock at noon on 2024-03-01, a birthday of
02.03.1990 yields "365 days to birthday" — the timedelta from noon to
tomorrow's midnight has a day count of 0, steering the already-passed
branch — while at exactly midnight the same call yields "1 days to
birthday"; the "today" sentinel for 01.03.1990 does hold at noon. -/
theorem days_to_birthday_time_of_day_bias :
    marchRec.days_to_birthday ⟨⟨2024, 3, 1⟩, 0⟩ = .ok "1 days to birthday" ∧
    marchRec.days_to_birthday ⟨⟨2024, 3, 1⟩, 43200⟩ = .ok "365 days to birthday" ∧
    todayRec.days_to_birthday ⟨⟨2024, 3, 1⟩, 43200⟩ = .ok "It is TODAY!!!" :=
  ⟨rfl, rfl, rfl⟩

/-- C1 (counterexample): adding a record whose name is already a key does not
fail — `add_record` overwrites the stored mapping for that key. -/
theorem add_record_overwrites_existing :
    AddressBook.add_record [("Bob", bobOld)] bobNew = [("Bob", bobNew)] ∧
    dictGet (AddressBook.add_record [("Bob", bobOld)] bobNew) "Bob" ≠ some bobOld := by
  constructor
  · rfl
  · decide

/-- C1 (amended): `add_record` always succeeds, mapping the record's name to
the record — an existing key is overwritten in place, a new key is appended
at the end — and every other key's binding and position are untouched. -/
theorem add_record_upsert (book : AddressBook) (r : Record) (k : String) :
    dictGet (book.add_record r) k
        = (if k = r.name then some r else dictGet book k) ∧
    (book.add_record r).map Prod.fst =
      (if (book.map Prod.fst).contains r.name then book.map Prod.fst
       else book.map Prod.fst ++ [r.name]) :=
  ⟨dictGet_dictUpdate book r.name r k, keys_dictUpdate book r.name r⟩

/-- C3 (counterexample): with email and birthday unset the rendering shows
the literal `None` after `E-mail:` and `B-day:` and a space precedes the
newline, so the claimed form with empty segments is not produced. -/
theorem recordStr_not_empty_segments :
    recordStr plainBob = "Bob: Phones: ; E-mail:None; B-day:None \n" ∧
    recordStr plainBob ≠ "Bob: Phones: ; E-mail:; B-day:\n" := by
  constructor
  · rfl
  · decide

/-- C3 (amended): every record renders as its name, `: Phones: `, the
comma-joined phone strings (an empty phone list joining to the empty
string), `; E-mail:` then the email or the literal `None`, `; B-day:` then
the birthday or the literal `None`, a space, and a line break. -/
theorem recordStr_amended_form (r : Record) :
    recordStr r = recordStrAmended r ∧
    String.intercalate ", " ([] : List String) = "" := by
  constructor
  · cases he : r.email <;> cases hb : r.birthday <;>
      simp [recordStr, recordStrAmended, strOpt, he, hb]
  · rfl

/-- C7: reloading a saved populated store reproduces it exactly — in
particular the same contact names, and contact by contact the same phones in
order, the same email and the same birthday. -/
theorem save_load_round_trip (S : AddressBook) (hS : S ≠ []) :
    AddressBook.load_from_file (AddressBook.save_to_file S) = S := by
  unfold AddressBook.load_from_file AddressBook.save_to_file
  rw [List.map_map]
  exact List.map_id S

/-- Witness for C7: round-trip of a store holding one fully populated
contact. -/
theorem save_load_round_trip_witness :
    AddressBook.load_from_file (AddressBook.save_to_file [("Wit", fullRec)])
      = [("Wit", fullRec)] :=
  save_load_round_trip [("Wit", fullRec)] (by decide)

/-- C4 (counterexample): on a two-phone record, index 0 does not fail —
`pop(num - 1)` becomes Python's `pop(-1)` and removes the last phone; the
matching `edit_phone` call likewise succeeds. -/
theorem phone_index_zero_succeeds :
    twoPhoneRec.del_phone 0
        = .ok ("22222", { twoPhoneRec with phones := ["11111"] }) ∧
    twoPhoneRec.edit_phone "33333" 0
        = .ok { twoPhoneRec with phones := ["33333", "11111"] } := by
  constructor
  · rfl
  · rfl

/-- C4 (amended): `del_phone` and `edit_phone` fail with `IndexError` exactly
when the phone list is empty, or the 1-based index exceeds the length, or it
falls below `1 - len` (an index in `[1 - len, 0]` addresses a phone from the
end, Python-style, and succeeds); the failing pop comes before any mutation,
so a failing call leaves the phone sequence exactly as it was. -/
theorem phone_index_failure_condition (r : Record) (p : String) (num : Int) :
    (r.del_phone num = .error .indexError ↔
      (r.phones = [] ∨ (r.phones.length : Int) < num
        ∨ num < 1 - (r.phones.length : Int))) ∧
    (r.edit_phone p num = .error .indexError ↔
      (r.phones = [] ∨ (r.phones.length : Int) < num
        ∨ num < 1 - (r.phones.length : Int))) := by
  have hiff := pyPop_eq_none_iff r.phones (num - 1)
  constructor
  · unfold Record.del_phone
    by_cases hE : r.phones.isEmpty = true
    · have h0 : r.phones = [] := List.isEmpty_iff.mp hE
      simp [hE, h0]
    · have hne : r.phones ≠ [] := by simpa [List.isEmpty_iff] using hE
      rw [if_neg hE]
      rcases hP : pyPop r.phones (num - 1) with _ | pr
      · have hcond := hiff.mp hP
        simp only [hP]
        constructor
        · intro _
          right
          omega
        · intro _
          trivial
      · obtain ⟨p0, rest⟩ := pr
        have hcond : ¬ ((r.phones.length : Int) ≤ num - 1
            ∨ num - 1 < -(r.phones.length : Int)) := by
          intro hc
          rw [hiff.mpr hc] at hP
          cases hP
        simp only [hP]
        constructor
        · intro hcontra
          cases hcontra
        · intro hor
          exfalso
          rcases hor with h1 | h2 | h3
          · exact hne h1
          · exact hcond (Or.inl (by omega))
          · exact hcond (Or.inr (by omega))
  · unfold Record.edit_phone
    by_cases hE : r.phones.isEmpty = true
    · have h0 : r.phones = [] := List.isEmpty_iff.mp hE
      simp [hE, h0]
    · have hne : r.phones ≠ [] := by simpa [List.isEmpty_iff] using hE
      rw [if_neg hE]
      rcases hP : pyPop r.phones (num - 1) with _ | pr
      · have hcond := hiff.mp hP
        simp only [hP]
        constructor
        · intro _
          right
          omega
        · intro _
          trivial
      · obtain ⟨p0, rest⟩ := pr
        have hcond : ¬ ((r.phones.length : Int) ≤ num - 1
            ∨ num - 1 < -(r.phones.length : Int)) := by
          intro hc
          rw [hiff.mpr hc] at hP
          cases hP
        simp only [hP]
        constructor
        · intro hcontra
          cases hcontra
        · intro hor
          exfalso
          rcases hor with h1 | h2 | h3
          · exact hne h1
          · exact hcond (Or.inl (by omega))
          · exact hcond (Or.inr (by omega))

/-- C5 (counterexample): a record with two phones matching the digit pattern
is returned once per matching phone, not once per record. -/
theorem search_repeats_matching_record :
    AddressBook.search [("Bob", dupRec)] "123" = [dupRec, dupRec] ∧
    AddressBook.search [("Bob", dupRec)] "123" ≠ [dupRec] := by
  constructor
  · rfl
  · decide

/-- C5 (amended): search of an all-digit pattern returns, in store order, one
occurrence of a record per phone having the pattern as a prefix of its digit
value; any other pattern returns, once each and in store order, the records
whose name has the pattern as a case-insensitive prefix (anchored `re.match`
semantics on the metacharacter-free patterns modelled here); the spec §8
example behaves as stated. -/
theorem search_amended_correct (book : AddressBook) (pattern : String) :
    AddressBook.search book pattern = searchAmended book pattern ∧
    AddressBook.search annaBook "Ann" = [annaRec, annRec] ∧
    AddressBook.search annaBook "123" = [annaRec] := by
  refine ⟨?_, by decide, by decide⟩
  unfold AddressBook.search searchAmended
  by_cases hnum : pyIsNumeric pattern = true
  · rw [if_pos hnum, if_pos hnum]
    have hfun : (fun kv : String × Record =>
        (kv.2.phones.filter (fun phone => reMatch pattern phone)).map
          (fun _ => kv.2))
        = (fun kv : String × Record =>
            List.replicate
              (kv.2.phones.countP (fun ph => pattern.data.isPrefixOf ph.data))
              kv.2) :=
      funext (fun kv => filter_map_const_eq_replicate _ _ _)
    rw [hfun]
  · rw [if_neg hnum, if_neg hnum]
    exact flatMap_ite_singleton book (fun r => reMatchCI pattern r.name)

/-- C6: for a positive page size the paginated view is exactly the
`page`-sized chunk pages followed by one summary page `Total: n contacts.`;
there are `ceil(n / p)` content pages; their concatenation is the
concatenation of every record's rendering in store order; an empty store
yields only the summary page. -/
theorem iterator_pagination (book : AddressBook) (p : Nat) (hp : 0 < p) :
    book.iterator p
        = (chunksOf p (book.map Prod.snd)).map (fun ch => joinAll (ch.map recordStr))
            ++ [summaryStr book.length] ∧
    (chunksOf p (book.map Prod.snd)).length = (book.length + p - 1) / p ∧
    joinAll ((chunksOf p (book.map Prod.snd)).map
        (fun ch => joinAll (ch.map recordStr)))
      = joinAll ((book.map Prod.snd).map recordStr) ∧
    (book = [] → book.iterator p = [summaryStr 0]) := by
  refine ⟨?_, ?_, ?_, ?_⟩
  · unfold AddressBook.iterator
    exact iterGo_eq_chunks book.length p hp (book.map Prod.snd)
  · rw [chunksOf_length p _ hp, List.length_map]
  · rw [joinAll_map_joinAll, chunksOf_flatten p _ hp]
  · rintro rfl
    unfold AddressBook.iterator
    rw [iterGo]
    simp [joinAll]

/-- Witness for C6: a one-record store under page size 2 yields one content
page and the summary. -/
theorem iterator_pagination_witness :
    AddressBook.iterator [("Wit", fullRec)] 2
      = [recordStr fullRec, summaryStr 1] := by
  rw [(iterator_pagination [("Wit", fullRec)] 2 (by decide)).1]
  rw [chunksOf, chunksOf]
  simp [joinAll]

/-- C8: for an all-digit `d` of length 5 to 17, parsing `"+" + d` succeeds
and stores exactly `d`; for an all-digit `d` of length outside `[5, 17]`,
parsing of both `"+" + d` and bare `d` fails; any input whose normalised
form retains a non-decimal character fails. -/
theorem phoneParse_spec (d : List Char) (s : String)
    (hd : ∀ c ∈ d, c.isDigit = true) :
    (5 ≤ d.length → d.length ≤ 17 →
      phoneParse (String.mk ('+' :: d)) = some (String.mk d)) ∧
    (d.length < 5 ∨ 17 < d.length →
      phoneParse (String.mk ('+' :: d)) = none ∧ phoneParse (String.mk d) = none) ∧
    ((phoneNormalize s.data).all Char.isDigit = false → phoneParse s = none) := by
  have hplus : phoneNormalize ('+' :: d) = d := phoneNormalize_plus_digits d hd
  have hbare : phoneNormalize d = d := phoneNormalize_digits d hd
  have hall : d.all Char.isDigit = true := List.all_eq_true.mpr hd
  refine ⟨?_, ?_, ?_⟩
  · intro h5 h17
    have hne : d.isEmpty = false := by
      rcases d with _ | _
      · simp at h5
      · rfl
    unfold phoneParse
    show (if !pyIsDecimal (phoneNormalize ('+' :: d))
        || !(phoneMinLen ≤ (phoneNormalize ('+' :: d)).length
              && (phoneNormalize ('+' :: d)).length ≤ phoneMaxLen) then none
      else some (String.mk (phoneNormalize ('+' :: d)))) = some (String.mk d)
    rw [hplus]
    simp [pyIsDecimal, hne, hall, h5, h17, phoneMinLen, phoneMaxLen]
  · intro hlo
    have h2 : (phoneMinLen ≤ d.length && d.length ≤ phoneMaxLen) = false := by
      rcases hlo with h | h <;> simp [phoneMinLen, phoneMaxLen] <;> omega
    constructor
    · unfold phoneParse
      show (if !pyIsDecimal (phoneNormalize ('+' :: d))
          || !(phoneMinLen ≤ (phoneNormalize ('+' :: d)).length
                && (phoneNormalize ('+' :: d)).length ≤ phoneMaxLen) then none
        else some (String.mk (phoneNormalize ('+' :: d)))) = none
      rw [hplus, h2]
      simp
    · unfold phoneParse
      show (if !pyIsDecimal (phoneNormalize d)
          || !(phoneMinLen ≤ (phoneNormalize d).length
                && (phoneNormalize d).length ≤ phoneMaxLen) then none
        else some (String.mk (phoneNormalize d))) = none
      rw [hbare, h2]
      simp
  · intro hbad
    have h1 : pyIsDecimal (phoneNormalize s.data) = false := by
      unfold pyIsDecimal
      rw [hbad]
      simp
    unfold phoneParse
    show (if !pyIsDecimal (phoneNormalize s.data)
        || !(phoneMinLen ≤ (phoneNormalize s.data).length
              && (phoneNormalize s.data).length ≤ phoneMaxLen) then none
      else some (String.mk (phoneNormalize s.data))) = none
    rw [h1]
    simp

/-- Witness for C8: a five-digit phone with a leading plus parses to the bare
digits; short inputs and lettered inputs fail. -/
theorem phoneParse_spec_witness :
    phoneParse (String.mk ('+' :: "12345".data)) = some (String.mk "12345".data) ∧
    phoneParse (String.mk ('+' :: "1234".data)) = none ∧
    phoneParse (String.mk "1234".data) = none ∧
    phoneParse "12a45" = none := by
  have h1 := phoneParse_spec "12345".data "12a45" (by decide)
  have h2 := phoneParse_spec "1234".data "12a45" (by decide)
  have h3 := h2.2.1 (by decide)
  exact ⟨h1.1 (by decide) (by decide), h3.1, h3.2, h1.2.2 (by decide)⟩
